import Mathlib

/-!
Verification of the webping batch WebP converter (src/init.py) against its
natural-language specification.  The Python source is shallowly embedded:
pure computations become Lean functions on `Nat`; the float expression
`int((width / orig_w) * orig_h)` is modelled by exact rational arithmetic,
whose truncation towards zero on nonnegative values is `Nat` division;
Python exceptions become `Except`; the file system seen by one call of
`process_file` is abstracted to the two booleans the code inspects or
changes (destination parent directory exists, destination file exists);
the behaviour of the external `ffmpeg` process and of Pillow's encoder are
environment parameters, while the dispatch logic around them is translated
verbatim from the source.
-/

/-- Python truthiness of the optional `width` / `height` arguments
(`int | None`): `None` and `0` are falsy, any other number is truthy.
Mirrors the conditions `if width and height: ... elif width: ... elif height:`
in `convert_with_pillow` (src/init.py). -/
def truthy : Option Nat → Bool
  | none => false
  | some n => n != 0

/-- The resize-planning logic of `convert_with_pillow` (src/init.py lines
41-49).  `origW`, `origH` are `img.size`; `width`, `height` the optional
targets.  Branches exactly as the source: both truthy → verbatim pair;
width only → `new_h = int((width / orig_w) * orig_h)`, which on a zero-width
original raises `ZeroDivisionError` (modelled as `Except.error` with the
text `str(e)` of that exception, which the enclosing generic handler of
`convert_with_pillow` later catches); height only symmetric; neither →
original size.  `int(...)` of the exact nonnegative quotient is `Nat`
division.  No positivity check of the computed dimension is performed by
the source. -/
def pillowPlan (origW origH : Nat) (width height : Option Nat) :
    Except String (Nat × Nat) :=
  if truthy width && truthy height then
    Except.ok (width.getD 0, height.getD 0)
  else if truthy width then
    if origW = 0 then Except.error "division by zero"
    else Except.ok (width.getD 0, width.getD 0 * origH / origW)
  else if truthy height then
    if origH = 0 then Except.error "division by zero"
    else Except.ok (height.getD 0 * origW / origH, height.getD 0)
  else
    Except.ok (origW, origH)

/-- Spec-side definition, following the words of the specification only:
"Only width given → height = round(targetWidth / originalWidth *
originalHeight)".  Rounding of `tw*h/w` to the nearest integer, halves up;
at every input used below the exact value has fractional part 1/2, where
round-half-up and Python's round-half-to-even agree. -/
def specPlannedHeight (origW origH tw : Nat) : Nat :=
  (2 * tw * origH + origW) / (2 * origW)

/-- The possible effects of one run of the external `ffmpeg` process as
`convert_with_ffmpeg` (src/init.py) observes them: whether the tool is on
the PATH (`ffmpeg_available`), its exit status, and whether the run
created (possibly partially wrote) the destination file before exiting.
On a run that exits 0 the destination was fully written by the tool. -/
structure FfmpegEnv where
  available : Bool
  exitCode : Nat
  wrote : Bool
  deriving DecidableEq

/-- `convert_with_ffmpeg` (src/init.py lines 67-93), abstracted over the
destination-file existence bit of the file system.  Returns the pair
`(success, error)` the Python function returns, together with whether the
destination file exists afterwards.  Faithful to the source: when the
process exits nonzero the function only returns `(False, str(e))` — it
performs no deletion of the destination, so the file system keeps whatever
the tool left behind. -/
def convertWithFfmpeg (env : FfmpegEnv) (dstExists : Bool) :
    (Bool × Option String) × Bool :=
  if !env.available then
    ((false, some "ffmpeg-not-found"), dstExists)
  else if env.exitCode = 0 then
    ((true, none), true)
  else
    ((false, some ("non-zero exit status " ++ toString env.exitCode)),
      dstExists || env.wrote)

/-- The `-vf` scale-filter expression built by `convert_with_ffmpeg`
(src/init.py lines 79-85): `scale=W:H` when both targets are truthy,
`scale=W:-1` for width only, `scale=-1:H` for height only, none
otherwise. -/
def scaleVf (width height : Option Nat) : Option String :=
  if truthy width && truthy height then
    some ("scale=" ++ toString (width.getD 0) ++ ":" ++ toString (height.getD 0))
  else if truthy width then
    some ("scale=" ++ toString (width.getD 0) ++ ":-1")
  else if truthy height then
    some ("scale=-1:" ++ toString (height.getD 0))
  else
    none

/-- The full command list built by `convert_with_ffmpeg` (src/init.py
lines 75-88): `["ffmpeg", "-y", "-i", src] (++ ["-vf", vf])? ++
["-quality", str(quality), dst]`. -/
def ffmpegCmd (src dst : String) (width height : Option Nat) (quality : Nat) :
    List String :=
  ["ffmpeg", "-y", "-i", src]
    ++ (match scaleVf width height with
        | some v => ["-vf", v]
        | none => [])
    ++ ["-quality", toString quality, dst]

/-- One decoded source frame for the animated branch of
`convert_with_pillow`: its raster payload (abstracted to a number) and the
optional per-frame display duration held in the frame's own info
dictionary. -/
structure SrcFrame where
  data : Nat
  duration : Option Nat
  deriving DecidableEq

/-- What the embedded backend wrote: an animated WebP (the encoded frames,
each as payload plus the duration applied to it, and the loop count) or a
single static image. -/
inductive PillowSaved where
  | animated (frames : List (Nat × Nat)) (loop : Nat)
  | static (data : Nat)
  deriving DecidableEq

/-- The animated branch of `convert_with_pillow` (src/init.py lines 52-65).
All frames are collected, then saved in one call with `loop=0` and the
single scalar `duration=img.info.get("duration", 100)` — `infoDuration`
here, the one value of the image's info dictionary, not a per-frame list.
If that multi-frame save raises (`multiOk = false`), the except branch
saves only the first frame as a static image, and the function still
returns success.  An empty frame list makes `frames[0]` raise, which the
enclosing generic handler turns into a failure (`none`). -/
def saveAnimated (frames : List SrcFrame) (infoDuration : Option Nat)
    (multiOk : Bool) : Option PillowSaved :=
  match frames with
  | [] => none
  | f0 :: rest =>
    if multiOk then
      some (PillowSaved.animated
        ((f0 :: rest).map (fun f => (f.data, infoDuration.getD 100))) 0)
    else
      some (PillowSaved.static f0.data)

/-- Spec-side definition, following the words of the specification only:
"preserving each frame's display duration (default 100ms units if
absent)" — the list of the frames' own durations, defaulting to 100. -/
def specAnimatedDurations (frames : List SrcFrame) : List Nat :=
  frames.map (fun f => f.duration.getD 100)

/-- The set of extensions `convert_to_webp` hands to Pillow
(`PIL_SUPPORTED`, src/init.py line 22). -/
def PIL_SUPPORTED : List String :=
  [".jpg", ".jpeg", ".png", ".gif", ".bmp", ".tiff", ".webp"]

/-- Python's `str.lower()` as applied to file extensions (ASCII case
folding, character by character), used by `process_file` in
`ext = src.suffix.lower()`. -/
def strLower (s : String) : String :=
  String.mk (s.toList.map Char.toLower)

/-- The two encoder backends of the pipeline. -/
inductive Backend where
  | pillow
  | ffmpeg
  deriving DecidableEq

/-- The terminal per-file report of `process_file` (src/init.py lines
99-130), one constructor per final status line it prints:
`[skip] ... (exists)`, `[pillow]`/`[ffmpeg]` success, `[ffmpeg-fail]`,
and the final `[skip] ...: unsupported format and ffmpeg fallback
disabled.` line. -/
inductive Outcome where
  | skippedExisting
  | success (b : Backend)
  | backendFailure (b : Backend) (err : String)
  | unsupportedSkip
  deriving DecidableEq

/-- The behaviour of one `convert_with_pillow` attempt as the dispatcher
observes it: whether it returned success, the error text otherwise, and
whether a failed attempt left a (possibly partial) destination file —
the source writes straight to `dst` and never cleans up. -/
structure PillowBehavior where
  ok : Bool
  err : String
  leftFile : Bool
  deriving DecidableEq

/-- File-system state relevant to one `process_file` call: whether the
destination's parent directory exists and whether the destination file
(already suffixed `.webp`) exists. -/
structure FState where
  parentExists : Bool
  dstExists : Bool
  deriving DecidableEq

/-- The shared ffmpeg tail of `process_file` (src/init.py lines 118-127),
reached either after a Pillow failure or directly for a non-Pillow
extension: run `convert_with_ffmpeg` and report `[ffmpeg]` success or
`[ffmpeg-fail]`. -/
def ffmpegStage (fe : FfmpegEnv) (tried : List Backend) (fs : FState) :
    Outcome × FState × List Backend :=
  match convertWithFfmpeg fe fs.dstExists with
  | ((true, _), d) =>
    (Outcome.success Backend.ffmpeg, ⟨fs.parentExists, d⟩,
      tried ++ [Backend.ffmpeg])
  | ((false, e), d) =>
    (Outcome.backendFailure Backend.ffmpeg (e.getD ""), ⟨fs.parentExists, d⟩,
      tried ++ [Backend.ffmpeg])

/-- `process_file` (src/init.py lines 99-130) with the destination path
already abstracted to its file-system bits.  Order as in the source:
`dst = dst.with_suffix(".webp")`, then `ensure_parent(dst)` (so the parent
directory exists from here on), then the skip-existing check, then the
extension dispatch: Pillow for `PIL_SUPPORTED` extensions of
`src.suffix.lower()`, falling through to ffmpeg when enabled, else the
final unsupported/disabled skip line.  A successful Pillow save means the
destination was written; a failed one leaves `pb.leftFile`.  The third
component records which backends were invoked, in order. -/
def processFile (ext : String) (skipExisting ffmpegFallback : Bool)
    (pb : PillowBehavior) (fe : FfmpegEnv) (fs0 : FState) :
    Outcome × FState × List Backend :=
  if skipExisting && fs0.dstExists then
    (Outcome.skippedExisting, ⟨true, fs0.dstExists⟩, [])
  else if PIL_SUPPORTED.contains (strLower ext) then
    if pb.ok then
      (Outcome.success Backend.pillow, ⟨true, true⟩, [Backend.pillow])
    else if ffmpegFallback then
      ffmpegStage fe [Backend.pillow] ⟨true, fs0.dstExists || pb.leftFile⟩
    else
      (Outcome.unsupportedSkip, ⟨true, fs0.dstExists || pb.leftFile⟩,
        [Backend.pillow])
  else if ffmpegFallback then
    ffmpegStage fe [] ⟨true, fs0.dstExists⟩
  else
    (Outcome.unsupportedSkip, ⟨true, fs0.dstExists⟩, [])

/-- Index of the last `'.'` in a list of characters, if any. -/
def rfindDot : List Char → Option Nat
  | [] => none
  | c :: cs =>
    match rfindDot cs with
    | some i => some (i + 1)
    | none => if c = '.' then some 0 else none

/-- `pathlib.PurePath.suffix` on a file name: the part of the name from its
last dot `i` on, provided `0 < i < len(name) - 1`, else the empty
string. -/
def pySuffix (name : String) : String :=
  match rfindDot name.toList with
  | some i =>
    if 0 < i ∧ i + 1 < name.toList.length then String.mk (name.toList.drop i)
    else ""
  | none => ""

/-- `pathlib.PurePath.with_suffix` on a file name, as used by
`process_file` for `dst.with_suffix(".webp")`: raises (`none`) on an empty
name; otherwise appends the new suffix when the name has none, and else
replaces the old one (`name[:-len(old_suffix)] + suffix`). -/
def withSuffix (name suffix : String) : Option String :=
  if name = "" then none
  else if pySuffix name = "" then some (name ++ suffix)
  else
    some (String.mk
      (name.toList.take (name.toList.length - (pySuffix name).toList.length))
      ++ suffix)

/-- Boolean string-suffix test, on the underlying character lists. -/
def endsWithStr (s t : String) : Bool :=
  t.toList.isSuffixOf s.toList

/-- Claim C1, counterexample.  At original dimensions (100, 1) and target
width 150 alone, the code computes height `int(1.5) = 1`, not
`round(1.5) = 2`; and re-planning with that height 1 as the sole target
yields width 100, which misses 150 by 50, far outside the claimed ±1
tolerance. -/
theorem c1_counterexample :
    pillowPlan 100 1 (some 150) none = Except.ok (150, 1)
    ∧ specPlannedHeight 100 1 150 = 2
    ∧ (1 : Nat) ≠ 2
    ∧ pillowPlan 100 1 none (some 1) = Except.ok (100, 1)
    ∧ ¬(150 - 1 ≤ 100 ∧ 100 ≤ 150 + 1) :=
  ⟨rfl, rfl, by decide, rfl, by decide⟩

/-- Claim C1, amended: with only a target width `tw` given, the planner
returns height `⌊tw·h/w⌋` (truncation by `int(...)`, not rounding), and
re-planning with that height as the sole target reproduces `tw` within
tolerance — the width `w2` obtained satisfies `tw - 1 ≤ w2 ≤ tw` —
provided the original is at least as tall as wide (`w ≤ h`) and the
returned height is nonzero (`w ≤ tw·h`); for originals with `w > h` the
deficit can reach `w/h`, as the counterexample shows. -/
theorem c1_amended (w h tw : Nat) (hw : 0 < w) (hwh : w ≤ h)
    (hnz : w ≤ tw * h) :
    pillowPlan w h (some tw) none = Except.ok (tw, tw * h / w)
    ∧ pillowPlan w h none (some (tw * h / w))
        = Except.ok (tw * h / w * w / h, tw * h / w)
    ∧ tw - 1 ≤ tw * h / w * w / h
    ∧ tw * h / w * w / h ≤ tw := by
  have hh : 0 < h := lt_of_lt_of_le hw hwh
  have htw : tw ≠ 0 := by
    rintro rfl
    simp only [Nat.zero_mul, Nat.le_zero] at hnz
    omega
  have hnh : tw * h / w ≠ 0 := (Nat.div_pos hnz hw).ne'
  refine ⟨?_, ?_, ?_, ?_⟩
  · simp [pillowPlan, truthy, htw, hw.ne']
  · simp [pillowPlan, truthy, hnh, hh.ne']
  · have hq := Nat.div_add_mod (tw * h) w
    have hrlt : tw * h % w < w := Nat.mod_lt _ hw
    have key : (tw - 1) * h ≤ tw * h / w * w := by
      rw [Nat.sub_mul, Nat.one_mul]
      have h2 : tw * h ≤ w * (tw * h / w) + h := by
        calc tw * h = w * (tw * h / w) + tw * h % w := hq.symm
          _ ≤ w * (tw * h / w) + h :=
            Nat.add_le_add_left (le_trans hrlt.le hwh) _
      calc tw * h - h ≤ w * (tw * h / w) := tsub_le_iff_right.mpr h2
        _ = tw * h / w * w := Nat.mul_comm _ _
    exact (Nat.le_div_iff_mul_le hh).mpr key
  · have hub : tw * h / w * w ≤ tw * h := Nat.div_mul_le_self _ _
    calc tw * h / w * w / h ≤ tw * h / h := Nat.div_le_div_right hub
      _ = tw := by rw [Nat.mul_comm]; exact Nat.mul_div_cancel_left tw hh

/-- Witness for `c1_amended` at the concrete input (w, h) = (2, 3),
tw = 5: planned height ⌊15/2⌋ = 7, round-trip width ⌊14/3⌋ = 4 ∈ [4, 5]. -/
theorem c1_amended_witness :
    pillowPlan 2 3 (some 5) none = Except.ok (5, 5 * 3 / 2)
    ∧ pillowPlan 2 3 none (some (5 * 3 / 2))
        = Except.ok (5 * 3 / 2 * 2 / 3, 5 * 3 / 2)
    ∧ 5 - 1 ≤ 5 * 3 / 2 * 2 / 3
    ∧ 5 * 3 / 2 * 2 / 3 ≤ 5 :=
  c1_amended 2 3 5 (by decide) (by decide) (by decide)

/-- Claim C2, counterexample.  At original dimensions (1000, 1) and target
width 100 alone, the computed height is `int(0.1) = 0`: the planner
returns the degenerate dimension pair (100, 0) as a normal result rather
than failing with any InvalidDimension error — no such error exists in the
code, and no positivity guard is applied to the computed dimension. -/
theorem c2_counterexample :
    pillowPlan 1000 1 (some 100) none = Except.ok (100, 0) := rfl

/-- Claim C2, amended: there is no InvalidDimension error in the code.  A
zero-width (resp. zero-height) original with the corresponding single
target raises `ZeroDivisionError`, which only the generic `except
Exception` handler of `convert_with_pillow` converts into a failure
result; and for a positive-width original the planner returns
`(tw, ⌊tw·h/w⌋)` unconditionally, passing a computed dimension of 0
straight through to the resize step instead of failing. -/
theorem c2_amended (oh ow tw th w h : Nat) (htw : 0 < tw) (hth : 0 < th)
    (hw : 0 < w) :
    pillowPlan 0 oh (some tw) none = Except.error "division by zero"
    ∧ pillowPlan ow 0 none (some th) = Except.error "division by zero"
    ∧ pillowPlan w h (some tw) none = Except.ok (tw, tw * h / w) := by
  refine ⟨?_, ?_, ?_⟩
  · simp [pillowPlan, truthy, htw.ne']
  · simp [pillowPlan, truthy, hth.ne']
  · simp [pillowPlan, truthy, htw.ne', hw.ne']

/-- Witness for `c2_amended`: zero-sized originals raise, and the
(1000, 1) original with target width 100 yields the degenerate height
`100 * 1 / 1000 = 0` without any error. -/
theorem c2_amended_witness :
    pillowPlan 0 1 (some 100) none = Except.error "division by zero"
    ∧ pillowPlan 1 0 none (some 5) = Except.error "division by zero"
    ∧ pillowPlan 1000 1 (some 100) none = Except.ok (100, 100 * 1 / 1000) :=
  c2_amended 1 1 100 5 1000 1 (by decide) (by decide) (by decide)

/-- Claim C9: a target of 0 is falsy in the Python conditions, so the
planner treats it exactly as an absent target: with width 0 the plan
equals the plan with no width at all (for any height target), with height
0 likewise, and with both 0 no resize happens — the original dimensions
are returned and a literal 0 never reaches the resize computation. -/
theorem c9_theorem (w h : Nat) (tW tH : Option Nat) :
    pillowPlan w h (some 0) tH = pillowPlan w h none tH
    ∧ pillowPlan w h tW (some 0) = pillowPlan w h tW none
    ∧ pillowPlan w h (some 0) (some 0) = Except.ok (w, h) := by
  refine ⟨?_, ?_, ?_⟩ <;> simp [pillowPlan, truthy]

/-- Claim C3, counterexample.  An available external tool that partially
writes the destination and exits with status 1 yields the failure result,
yet the destination file exists afterwards: `convert_with_ffmpeg` catches
`CalledProcessError` and returns, deleting nothing. -/
theorem c3_counterexample :
    (convertWithFfmpeg ⟨true, 1, true⟩ false).1.1 = false
    ∧ (convertWithFfmpeg ⟨true, 1, true⟩ false).2 = true := by decide

/-- Claim C3, amended: when the external tool exits with nonzero status
the outcome is a backend failure, but no cleanup is performed — the
destination file afterwards is exactly whatever the tool left behind
(it exists iff it existed before or the tool wrote it), so a partially
written destination can remain; the code has no temporary-path-and-rename
and no delete-on-failure, in either backend. -/
theorem c3_amended (env : FfmpegEnv) (d : Bool) (hav : env.available = true)
    (hne : env.exitCode ≠ 0) :
    (convertWithFfmpeg env d).1.1 = false
    ∧ (convertWithFfmpeg env d).2 = (d || env.wrote) := by
  simp [convertWithFfmpeg, hav, hne]

/-- Witness for `c3_amended`: tool available, exit status 2, destination
already present. -/
theorem c3_amended_witness :
    (convertWithFfmpeg ⟨true, 2, false⟩ true).1.1 = false
    ∧ (convertWithFfmpeg ⟨true, 2, false⟩ true).2 = (true || false) :=
  c3_amended ⟨true, 2, false⟩ true rfl (by decide)

/-- Claim C4, counterexample.  A 3-frame source whose frames carry the
distinct durations 100, 200, 300 is encoded with the single scalar
`duration=img.info.get("duration", 100)`: every output frame gets the same
duration, so the original per-frame durations are not preserved. -/
theorem c4_counterexample :
    saveAnimated [⟨0, some 100⟩, ⟨1, some 200⟩, ⟨2, some 300⟩] (some 100) true
      = some (PillowSaved.animated [(0, 100), (1, 100), (2, 100)] 0)
    ∧ specAnimatedDurations [⟨0, some 100⟩, ⟨1, some 200⟩, ⟨2, some 300⟩]
        = [100, 200, 300]
    ∧ ([100, 100, 100] : List Nat) ≠ [100, 200, 300] := by decide

/-- Claim C4, amended: for an animated source with n ≥ 2 frames the
embedded backend encodes exactly n frames in source order with loop = 0
(infinite), but every frame receives one and the same display duration —
the single value of the image's info dictionary, defaulting to 100 —
rather than its own per-frame duration; if the multi-frame save fails,
exactly the first frame is encoded as a static image and this still
counts as success. -/
theorem c4_amended (f0 : SrcFrame) (rest : List SrcFrame) (info : Option Nat)
    (_hn : 1 ≤ rest.length) :
    (∃ out, saveAnimated (f0 :: rest) info true
        = some (PillowSaved.animated out 0)
      ∧ out.length = rest.length + 1
      ∧ out.map Prod.fst = (f0 :: rest).map SrcFrame.data
      ∧ ∀ p ∈ out, p.2 = info.getD 100)
    ∧ saveAnimated (f0 :: rest) info false
        = some (PillowSaved.static f0.data) := by
  refine ⟨⟨(f0 :: rest).map (fun f => (f.data, info.getD 100)),
    ?_, ?_, ?_, ?_⟩, ?_⟩
  · simp [saveAnimated]
  · simp
  · simp [List.map_map]
  · intro p hp
    simp only [List.mem_map] at hp
    obtain ⟨f, _, rfl⟩ := hp
    rfl
  · simp [saveAnimated]

/-- Witness for `c4_amended` at a concrete 2-frame source with info
duration 40. -/
theorem c4_amended_witness :
    (∃ out, saveAnimated ((⟨7, some 40⟩ : SrcFrame) :: [⟨8, some 50⟩])
          (some 40) true
        = some (PillowSaved.animated out 0)
      ∧ out.length = ([⟨8, some 50⟩] : List SrcFrame).length + 1
      ∧ out.map Prod.fst
          = ((⟨7, some 40⟩ : SrcFrame) :: [⟨8, some 50⟩]).map SrcFrame.data
      ∧ ∀ p ∈ out, p.2 = (some 40).getD 100)
    ∧ saveAnimated ((⟨7, some 40⟩ : SrcFrame) :: [⟨8, some 50⟩])
          (some 40) false
        = some (PillowSaved.static (⟨7, some 40⟩ : SrcFrame).data) :=
  c4_amended ⟨7, some 40⟩ [⟨8, some 50⟩] (some 40) (by decide)

/-- A run of the external tool that returned success wrote the destination
file. -/
theorem convertWithFfmpeg_ok_dst (fe : FfmpegEnv) (d : Bool)
    (h : (convertWithFfmpeg fe d).1.1 = true) :
    (convertWithFfmpeg fe d).2 = true := by
  cases hav : fe.available <;> by_cases hec : fe.exitCode = 0 <;>
    simp_all [convertWithFfmpeg]

/-- Claim C10: `ensure_parent` runs before the skip-existing check and
before the extension dispatch, so after any `process_file` call —
including one that skips an existing destination or rejects an
unsupported format without any encode attempt — the destination's parent
directory exists. -/
theorem c10_theorem (ext : String) (sk fb : Bool) (pb : PillowBehavior)
    (fe : FfmpegEnv) (fs0 : FState) :
    (processFile ext sk fb pb fe fs0).2.1.parentExists = true := by
  unfold processFile ffmpegStage
  repeat' split
  all_goals rfl

/-- Claim C5, counterexample.  A source with extension `.xyz` (not Pillow
supported), ffmpeg fallback enabled but the tool failing with exit 1 and
writing nothing: the first run with skip-existing enabled creates no
destination, so the second run is not SkippedExisting — it invokes the
external backend again, re-attempting the encode.  Hence a second run does
not report SkippedExisting for every file, nor zero re-encodes. -/
theorem c5_counterexample :
    ((processFile ".xyz" true true ⟨false, "", false⟩ ⟨true, 1, false⟩
        (processFile ".xyz" true true ⟨false, "", false⟩ ⟨true, 1, false⟩
          ⟨false, false⟩).2.1).1
      ≠ Outcome.skippedExisting)
    ∧ ((processFile ".xyz" true true ⟨false, "", false⟩ ⟨true, 1, false⟩
        (processFile ".xyz" true true ⟨false, "", false⟩ ⟨true, 1, false⟩
          ⟨false, false⟩).2.1).2.2 ≠ []) := by decide

/-- Claim C5, amended: with skip-existing enabled and the destination
already present, the Dispatcher reports SkippedExisting and invokes no
backend; consequently a second run with skip-existing enabled reports
SkippedExisting with zero encode attempts for every file whose first run
succeeded — a success always leaves the destination file in place.  (Files
whose first attempt failed without creating a destination are re-attempted
by a second run, as the counterexample shows.) -/
theorem c5_amended (ext : String) (sk fb : Bool) (pb pb2 : PillowBehavior)
    (fe fe2 : FfmpegEnv) (fs0 : FState) :
    (fs0.dstExists = true →
      processFile ext true fb pb fe fs0
        = (Outcome.skippedExisting, ⟨true, true⟩, []))
    ∧ (∀ b, (processFile ext sk fb pb fe fs0).1 = Outcome.success b →
        (processFile ext true fb pb2 fe2
            (processFile ext sk fb pb fe fs0).2.1).1 = Outcome.skippedExisting
        ∧ (processFile ext true fb pb2 fe2
            (processFile ext sk fb pb fe fs0).2.1).2.2 = []) := by
  constructor
  · intro hd
    simp [processFile, hd]
  · intro b h1
    have hdst : (processFile ext sk fb pb fe fs0).2.1.dstExists = true := by
      obtain ⟨pe0, de0⟩ := fs0
      obtain ⟨pok, perr, pleft⟩ := pb
      obtain ⟨fav, fec, fwr⟩ := fe
      by_cases h2c : PIL_SUPPORTED.contains (strLower ext) = true <;>
        cases sk <;> cases de0 <;> cases pok <;> cases fb <;> cases fav <;>
        by_cases h6c : fec = 0 <;>
        simp_all [processFile, ffmpegStage, convertWithFfmpeg]
    rcases hrun : processFile ext sk fb pb fe fs0 with ⟨o1, fs1, a1⟩
    rw [hrun] at hdst
    simp only at hdst
    constructor <;> simp [processFile, hdst]

/-- Witness for `c5_amended`: a `.png` source whose Pillow attempt
succeeds; the pre-existing-destination part is exercised with the
destination present. -/
theorem c5_amended_witness :
    (processFile ".png" true false ⟨true, "", false⟩ ⟨false, 0, false⟩
        ⟨false, true⟩
      = (Outcome.skippedExisting, ⟨true, true⟩, []))
    ∧ ((processFile ".png" true false ⟨true, "", false⟩ ⟨false, 0, false⟩
          (processFile ".png" false false ⟨true, "", false⟩ ⟨false, 0, false⟩
            ⟨false, false⟩).2.1).1 = Outcome.skippedExisting)
    ∧ ((processFile ".png" true false ⟨true, "", false⟩ ⟨false, 0, false⟩
          (processFile ".png" false false ⟨true, "", false⟩ ⟨false, 0, false⟩
            ⟨false, false⟩).2.1).2.2 = []) := by
  refine ⟨(c5_amended ".png" true false ⟨true, "", false⟩ ⟨true, "", false⟩
      ⟨false, 0, false⟩ ⟨false, 0, false⟩ ⟨false, true⟩).1 rfl, ?_, ?_⟩
  · exact ((c5_amended ".png" false false ⟨true, "", false⟩ ⟨true, "", false⟩
      ⟨false, 0, false⟩ ⟨false, 0, false⟩ ⟨false, false⟩).2 Backend.pillow
        (by decide)).1
  · exact ((c5_amended ".png" false false ⟨true, "", false⟩ ⟨true, "", false⟩
      ⟨false, 0, false⟩ ⟨false, 0, false⟩ ⟨false, false⟩).2 Backend.pillow
        (by decide)).2

/-- Claim C6: for a source extension outside `PIL_SUPPORTED`, provided the
skip-existing branch is not taken, disabling the ffmpeg fallback yields the
unsupported-format skip with no backend invoked and the destination-file
state unchanged (no file created); enabling it sends the request directly
to the external backend — the invoked-backend list is exactly `[ffmpeg]`,
with no embedded attempt. -/
theorem c6_theorem (ext : String) (sk : Bool) (pb : PillowBehavior)
    (fe : FfmpegEnv) (fs0 : FState)
    (hext : ¬ strLower ext ∈ PIL_SUPPORTED)
    (hskip : (sk && fs0.dstExists) = false) :
    processFile ext sk false pb fe fs0
      = (Outcome.unsupportedSkip, ⟨true, fs0.dstExists⟩, [])
    ∧ (processFile ext sk true pb fe fs0).2.2 = [Backend.ffmpeg] := by
  constructor
  · simp [processFile, hext, hskip]
  · rcases hcv : convertWithFfmpeg fe fs0.dstExists with ⟨⟨ok, e⟩, d⟩
    cases ok <;> simp [processFile, ffmpegStage, hext, hskip, hcv]

/-- Witness for `c6_theorem` at extension `.xyz` with an empty starting
file system. -/
theorem c6_witness :
    processFile ".xyz" false false ⟨false, "boom", false⟩ ⟨true, 1, false⟩
        ⟨false, false⟩
      = (Outcome.unsupportedSkip, ⟨true, false⟩, [])
    ∧ (processFile ".xyz" false true ⟨false, "boom", false⟩ ⟨true, 1, false⟩
        ⟨false, false⟩).2.2 = [Backend.ffmpeg] :=
  c6_theorem ".xyz" false ⟨false, "boom", false⟩ ⟨true, 1, false⟩
    ⟨false, false⟩ (by decide) (by decide)

/-- Concatenating strings concatenates their character lists. -/
theorem string_toList_append (a b : String) :
    (a ++ b).toList = a.toList ++ b.toList := by
  cases a; cases b; rfl

/-- Claim C7, counterexample.  The source name `photo.png.png` has
extension `.png`, yet `with_suffix(".webp")` replaces only the final
extension, producing `photo.png.webp` — which ends in `.png.webp`,
violating the claim's "never ends in `.png.webp`". -/
theorem c7_counterexample :
    pySuffix "photo.png.png" = ".png"
    ∧ withSuffix "photo.png.png" ".webp" = some "photo.png.webp"
    ∧ endsWithStr "photo.png.webp" ".png.webp" = true := by decide

/-- Claim C7, amended: every destination produced by
`dst.with_suffix(".webp")` ends in `.webp`, and in particular never ends
in `.png`; but because only the final extension is replaced, a source
whose stem itself ends in `.png` (e.g. `photo.png.png`) yields a
destination ending in `.png.webp`, so that part of the claim does not
hold. -/
theorem c7_amended (name res : String)
    (h : withSuffix name ".webp" = some res) :
    (∃ l, res.toList = l ++ (".webp").toList)
    ∧ ¬∃ l, res.toList = l ++ (".png").toList := by
  have hres : ∃ l, res.toList = l ++ (".webp").toList := by
    unfold withSuffix at h
    split at h
    · exact absurd h (by simp)
    · split at h
      · injection h with h'
        exact ⟨name.toList, by rw [← h', string_toList_append]⟩
      · injection h with h'
        refine ⟨name.toList.take
          (name.toList.length - (pySuffix name).toList.length), ?_⟩
        rw [← h', string_toList_append]
        rfl
  refine ⟨hres, ?_⟩
  rintro ⟨l, hl⟩
  obtain ⟨t, ht⟩ := hres
  rw [ht] at hl
  have hw : (".webp").toList = ['.', 'w', 'e', 'b', 'p'] := rfl
  have hp : (".png").toList = ['.', 'p', 'n', 'g'] := rfl
  rw [hw, hp] at hl
  have h2 := congrArg List.reverse hl
  simp [List.reverse_append] at h2

/-- Witness for `c7_amended` at the ordinary source name `photo.png`. -/
theorem c7_amended_witness :
    (∃ l, ("photo.webp").toList = l ++ (".webp").toList)
    ∧ ¬∃ l, ("photo.webp").toList = l ++ (".png").toList :=
  c7_amended "photo.png" "photo.webp" (by decide)

/-- Claim C8: the external invocation built by `convert_with_ffmpeg`
always carries the unconditional overwrite flag `-y`, carries a `-vf`
scale filter exactly when a resize was requested — `scale=W:H` with both
dimensions given, `scale=W:-1` with width only, `scale=-1:H` with height
only, and no filter with neither — and passes the quality value once, as
the single scalar argument of `-quality`. -/
theorem c8_theorem (src dst : String) (w h q : Nat) (hw : 0 < w)
    (hh : 0 < h) :
    ffmpegCmd src dst (some w) (some h) q
      = ["ffmpeg", "-y", "-i", src, "-vf",
          "scale=" ++ toString w ++ ":" ++ toString h,
          "-quality", toString q, dst]
    ∧ ffmpegCmd src dst (some w) none q
      = ["ffmpeg", "-y", "-i", src, "-vf", "scale=" ++ toString w ++ ":-1",
          "-quality", toString q, dst]
    ∧ ffmpegCmd src dst none (some h) q
      = ["ffmpeg", "-y", "-i", src, "-vf", "scale=-1:" ++ toString h,
          "-quality", toString q, dst]
    ∧ ffmpegCmd src dst none none q
      = ["ffmpeg", "-y", "-i", src, "-quality", toString q, dst] := by
  refine ⟨?_, ?_, ?_, ?_⟩ <;>
    simp [ffmpegCmd, scaleVf, truthy, hw.ne', hh.ne']

/-- Witness for `c8_theorem` at width 800, height 600, quality 60. -/
theorem c8_witness :
    ffmpegCmd "in.png" "out.webp" (some 800) (some 600) 60
      = ["ffmpeg", "-y", "-i", "in.png", "-vf",
          "scale=" ++ toString 800 ++ ":" ++ toString 600,
          "-quality", toString 60, "out.webp"]
    ∧ ffmpegCmd "in.png" "out.webp" (some 800) none 60
      = ["ffmpeg", "-y", "-i", "in.png", "-vf",
          "scale=" ++ toString 800 ++ ":-1",
          "-quality", toString 60, "out.webp"]
    ∧ ffmpegCmd "in.png" "out.webp" none (some 600) 60
      = ["ffmpeg", "-y", "-i", "in.png", "-vf", "scale=-1:" ++ toString 600,
          "-quality", toString 60, "out.webp"]
    ∧ ffmpegCmd "in.png" "out.webp" none none 60
      = ["ffmpeg", "-y", "-i", "in.png", "-quality", toString 60,
          "out.webp"] :=
  c8_theorem "in.png" "out.webp" 800 600 60 (by decide) (by decide)
